import Mathlib

/-!
Shallow embedding of the Fluid Trading Terminal simulator
(`src/components/fluid-trading-simulator.tsx`, exponential-drift variant;
the trade rule, price-buffer update and reset are identical in the
linear variant `src/unnamed/part_000`).

Modelling conventions:
* JavaScript numbers are embedded as exact rationals (`ℚ`).
* The periodic `setInterval` callback is embedded as a sequential state
  transition executed once per tick: each tick reads a consistent
  pre-tick snapshot of the component state (`cashBalance`, `sharesHeld`,
  `tradeStatus`, `priceData`) and the functional React setters are applied
  in order, exactly as the callback body is written.  Randomness
  (`Math.random() - 0.5) * 2`) becomes an explicit parameter
  `randomChange`, and `tickWithPrice` exposes the tick with the generated
  `newPrice` given directly, which is how the specification quantifies
  over prices.
* The balance-history updater recomputes the projected balance from the
  pre-tick `cashBalance`/`sharesHeld` and logs the pre-tick `tradeStatus`,
  as the source closure does.
* JavaScript `x || d` on a number is falsy at `0`, so
  `prevHistory[prevHistory.length - 1]?.balance || 1000` yields `1000`
  both when the history is empty and when the last logged balance is `0`;
  the embedding reproduces this.
-/

/-- Configuration fixed while a run is in progress (`anchorPrice`,
`microTradeAmount` React states; `growthRate` is hard-coded to `0.002`
inside the interval callback and is therefore not a field). -/
structure SimConfig where
  anchorPrice : ℚ
  microTradeAmount : ℚ
deriving DecidableEq, Repr

/-- One chart datum: `{ time: prevData.length, price: newPrice }`. -/
structure PricePoint where
  time : ℕ
  price : ℚ
deriving DecidableEq, Repr

/-- One balance-log entry: `{ time, balance, change, action, price }`;
the initial entry carries no price (`none`). -/
structure BalanceEvent where
  time : ℕ
  balance : ℚ
  change : ℚ
  action : String
  price : Option ℚ
deriving DecidableEq, Repr

/-- The mutable component state the simulator touches: the React states
`currentPrice`, `cashBalance`, `sharesHeld`, `tradeStatus`, `priceData`,
`cashBalanceHistory`, plus `isRunning`, which in the source is in
lockstep with the scheduled `setInterval` timer (`timerRef`): the timer
is scheduled exactly while `isRunning` is true. -/
structure SimState where
  currentPrice : ℚ
  cashBalance : ℚ
  sharesHeld : ℚ
  tradeStatus : String
  priceData : List PricePoint
  cashBalanceHistory : List BalanceEvent
  isRunning : Bool
deriving DecidableEq, Repr

/-- Initial state of the component: price at the anchor, cash 1000, no
shares, status IDLE, singleton buffers. -/
def initState (cfg : SimConfig) : SimState where
  currentPrice := cfg.anchorPrice
  cashBalance := 1000
  sharesHeld := 0
  tradeStatus := "IDLE"
  priceData := [⟨0, cfg.anchorPrice⟩]
  cashBalanceHistory := [⟨0, 1000, 0, "INITIAL", none⟩]
  isRunning := false

/-- Price generation of the exponential-drift variant:
`exponentialBase = anchorPrice * (1 + 0.002) ^ timeElapsed` with
`timeElapsed = priceData.length`, then
`newPrice = exponentialBase + randomChange * (exponentialBase * 0.015)`. -/
def generatePrice (anchorPrice : ℚ) (timeElapsed : ℕ) (randomChange : ℚ) : ℚ :=
  let growthRate : ℚ := 2 / 1000
  let exponentialBase := anchorPrice * (1 + growthRate) ^ timeElapsed
  let volatility := exponentialBase * (15 / 1000)
  exponentialBase + randomChange * volatility

/-- JavaScript `Math.min` on two exact rationals: the smaller argument. -/
def mathMin (a b : ℚ) : ℚ := if a ≤ b then a else b

/-- Chart-buffer update: append `{ time: prevData.length, price }`, and
when the result exceeds 50 entries keep only the last 50
(`newData.slice(newData.length - 50)`). -/
def updatePriceData (prevData : List PricePoint) (newPrice : ℚ) : List PricePoint :=
  let newData := prevData ++ [⟨prevData.length, newPrice⟩]
  if newData.length > 50 then newData.drop (newData.length - 50) else newData

/-- Trade execution: returns the new `(cashBalance, sharesHeld,
tradeStatus)` from the pre-tick values.  Below the anchor with enough
cash it buys `microTradeAmount / newPrice` shares; above the anchor with
positive shares it sells `min sharesHeld (microTradeAmount / newPrice)`
shares; at the anchor it sets IDLE; in the two remaining cases nothing
is written, so all three components keep their pre-tick values. -/
def executeTrade (cfg : SimConfig) (newPrice cashBalance sharesHeld : ℚ)
    (tradeStatus : String) : ℚ × ℚ × String :=
  if newPrice < cfg.anchorPrice then
    if cfg.microTradeAmount ≤ cashBalance then
      let sharesToBuy := cfg.microTradeAmount / newPrice
      (cashBalance - cfg.microTradeAmount, sharesHeld + sharesToBuy, "BUYING")
    else
      (cashBalance, sharesHeld, tradeStatus)
  else if cfg.anchorPrice < newPrice then
    if 0 < sharesHeld then
      let sharesToSell := mathMin sharesHeld (cfg.microTradeAmount / newPrice)
      let sellValue := sharesToSell * newPrice
      (cashBalance + sellValue, sharesHeld - sharesToSell, "SELLING")
    else
      (cashBalance, sharesHeld, tradeStatus)
  else
    (cashBalance, sharesHeld, "IDLE")

/-- Balance-log update.  `lastBalance` is
`prevHistory[prevHistory.length - 1]?.balance || 1000`: the JavaScript
`||` replaces a missing entry, and also a falsy balance of `0`, by
`1000`.  `currentBalance` re-projects the post-trade balance from the
pre-tick `cashBalance`/`sharesHeld`, and an event is appended exactly
when it differs from `lastBalance`, stamped with
`time = prevHistory.length` and the pre-tick `tradeStatus`. -/
def updateCashBalanceHistory (cfg : SimConfig) (newPrice cashBalance sharesHeld : ℚ)
    (tradeStatus : String) (prevHistory : List BalanceEvent) : List BalanceEvent :=
  let lastBalance :=
    match prevHistory.getLast? with
    | some e => if e.balance = 0 then 1000 else e.balance
    | none => 1000
  let currentBalance :=
    cashBalance
      + (if newPrice < cfg.anchorPrice ∧ cfg.microTradeAmount ≤ cashBalance then
          -cfg.microTradeAmount else 0)
      + (if cfg.anchorPrice < newPrice ∧ 0 < sharesHeld then
          mathMin sharesHeld (cfg.microTradeAmount / newPrice) * newPrice else 0)
  if currentBalance ≠ lastBalance then
    prevHistory ++
      [⟨prevHistory.length, currentBalance, currentBalance - lastBalance,
        tradeStatus, some newPrice⟩]
  else
    prevHistory

/-- One execution of the interval callback with the generated `newPrice`
given directly: set the current price, update the chart buffer, execute
the trade and update the balance log, all from the pre-tick snapshot. -/
def tickWithPrice (cfg : SimConfig) (s : SimState) (newPrice : ℚ) : SimState :=
  let traded := executeTrade cfg newPrice s.cashBalance s.sharesHeld s.tradeStatus
  { currentPrice := newPrice
    cashBalance := traded.1
    sharesHeld := traded.2.1
    tradeStatus := traded.2.2
    priceData := updatePriceData s.priceData newPrice
    cashBalanceHistory :=
      updateCashBalanceHistory cfg newPrice s.cashBalance s.sharesHeld
        s.tradeStatus s.cashBalanceHistory
    isRunning := s.isRunning }

/-- One execution of the interval callback from the random draw
`randomChange` (the source's `(Math.random() - 0.5) * 2`): the price is
generated from `timeElapsed = priceData.length` and the tick proceeds as
`tickWithPrice`. -/
def tick (cfg : SimConfig) (s : SimState) (randomChange : ℚ) : SimState :=
  let timeElapsed := s.priceData.length
  let newPrice := generatePrice cfg.anchorPrice timeElapsed randomChange
  tickWithPrice cfg s newPrice

/-- Run a sequence of ticks from the initial state, with the generated
prices given directly. -/
def runPrices (cfg : SimConfig) (prices : List ℚ) : SimState :=
  prices.foldl (tickWithPrice cfg) (initState cfg)

/-- Run a sequence of ticks from the initial state, with the random
draws given and prices generated as in the source. -/
def runTicks (cfg : SimConfig) (draws : List ℚ) : SimState :=
  draws.foldl (tick cfg) (initState cfg)

/-- The `startSimulation` entry guard: when already running it returns,
otherwise it sets `isRunning` and schedules the interval timer. -/
def startSimulation (s : SimState) : SimState :=
  if s.isRunning then s else { s with isRunning := true }

/-- The `pauseSimulation` command: when running, cancel the timer, clear
`isRunning` and set the status to PAUSED. -/
def pauseSimulation (s : SimState) : SimState :=
  if s.isRunning then
    { s with isRunning := false, tradeStatus := "PAUSED" }
  else s

/-- The `resetSimulation` command: cancel the timer and restore every
field to its initial, config-derived value. -/
def resetSimulation (cfg : SimConfig) (_s : SimState) : SimState where
  currentPrice := cfg.anchorPrice
  cashBalance := 1000
  sharesHeld := 0
  tradeStatus := "IDLE"
  priceData := [⟨0, cfg.anchorPrice⟩]
  cashBalanceHistory := [⟨0, 1000, 0, "INITIAL", none⟩]
  isRunning := false

/-- A user-visible operation of the control loop: a command button or a
timer tick (which only fires while the timer is scheduled). -/
inductive SimOp where
  | start : SimOp
  | pause : SimOp
  | tickOp : ℚ → SimOp
deriving DecidableEq, Repr

/-- Apply one operation to the state. -/
def applyOp (cfg : SimConfig) (s : SimState) : SimOp → SimState
  | .start => startSimulation s
  | .pause => pauseSimulation s
  | .tickOp p => if s.isRunning then tickWithPrice cfg s p else s

/-- Apply a sequence of operations from the initial state. -/
def applyOps (cfg : SimConfig) (ops : List SimOp) : SimState :=
  ops.foldl (applyOp cfg) (initState cfg)

/-- Formatting of a rational to exactly two decimal places, the effect
of JavaScript `Number.prototype.toFixed(2)` on the exact values the
simulator logs: sign, integer part, a dot, and two digits obtained by
rounding `|q| * 100` to the nearest integer. -/
def toFixed2 (q : ℚ) : String :=
  let sign := if q < 0 then "-" else ""
  let cents := (q.num.natAbs * 200 + q.den) / (2 * q.den)
  let fracPart := cents % 100
  let pad := if fracPart < 10 then "0" else ""
  sign ++ toString (cents / 100) ++ "." ++ pad ++ toString fracPart

/-- One CSV row of `exportCashBalanceData`: time, balance and change to
two decimals, the action, and the price to two decimals or `N/A` when
absent, joined by commas. -/
def csvRow (e : BalanceEvent) : String :=
  String.intercalate ","
    [toString e.time, toFixed2 e.balance, toFixed2 e.change, e.action,
      match e.price with
      | some p => toFixed2 p
      | none => "N/A"]

/-- The CSV content built by `exportCashBalanceData`: the header row
followed by one row per logged event, joined by newlines. -/
def exportCashBalanceData (history : List BalanceEvent) : String :=
  String.intercalate "\n"
    (String.intercalate "," ["Time", "Cash Balance", "Change", "Action", "Asset Price"]
      :: history.map csvRow)

/-- A state whose chart buffer is saturated at the 50-entry cap, used to
exercise the buffer update at capacity. -/
def satState : SimState :=
  { initState ⟨100, 1⟩ with priceData := (List.range 50).map fun i => ⟨i, 100⟩ }


lemma tickWithPrice_tradeStatus (cfg : SimConfig) (s : SimState) (p : ℚ) :
    (tickWithPrice cfg s p).tradeStatus =
      (executeTrade cfg p s.cashBalance s.sharesHeld s.tradeStatus).2.2 := rfl

lemma tickWithPrice_cashBalance (cfg : SimConfig) (s : SimState) (p : ℚ) :
    (tickWithPrice cfg s p).cashBalance =
      (executeTrade cfg p s.cashBalance s.sharesHeld s.tradeStatus).1 := rfl

lemma tickWithPrice_sharesHeld (cfg : SimConfig) (s : SimState) (p : ℚ) :
    (tickWithPrice cfg s p).sharesHeld =
      (executeTrade cfg p s.cashBalance s.sharesHeld s.tradeStatus).2.1 := rfl

lemma tickWithPrice_priceData (cfg : SimConfig) (s : SimState) (p : ℚ) :
    (tickWithPrice cfg s p).priceData = updatePriceData s.priceData p := rfl

/-- C1: the trade rule as the code implements it, one case analysis per
tick.  Below the anchor with enough cash the status becomes BUYING,
above the anchor with positive shares it becomes SELLING, at the anchor
it becomes IDLE with no balance change, and in the two degenerate cases
(buy zone without enough cash, sell zone without shares) the status is
left at its previous value and cash and shares are unchanged. -/
theorem c1_trade_rule (cfg : SimConfig) (s : SimState) (p : ℚ) :
    (p < cfg.anchorPrice → cfg.microTradeAmount ≤ s.cashBalance →
        (tickWithPrice cfg s p).tradeStatus = "BUYING") ∧
    (cfg.anchorPrice < p → 0 < s.sharesHeld →
        (tickWithPrice cfg s p).tradeStatus = "SELLING") ∧
    (p = cfg.anchorPrice →
        (tickWithPrice cfg s p).tradeStatus = "IDLE" ∧
        (tickWithPrice cfg s p).cashBalance = s.cashBalance ∧
        (tickWithPrice cfg s p).sharesHeld = s.sharesHeld) ∧
    (p < cfg.anchorPrice → s.cashBalance < cfg.microTradeAmount →
        (tickWithPrice cfg s p).tradeStatus = s.tradeStatus ∧
        (tickWithPrice cfg s p).cashBalance = s.cashBalance ∧
        (tickWithPrice cfg s p).sharesHeld = s.sharesHeld) ∧
    (cfg.anchorPrice < p → s.sharesHeld ≤ 0 →
        (tickWithPrice cfg s p).tradeStatus = s.tradeStatus ∧
        (tickWithPrice cfg s p).cashBalance = s.cashBalance ∧
        (tickWithPrice cfg s p).sharesHeld = s.sharesHeld) := by
  refine ⟨fun h1 h2 => ?_, fun h1 h2 => ?_, fun h => ?_,
    fun h1 h2 => ?_, fun h1 h2 => ?_⟩
  · simp [tickWithPrice_tradeStatus, executeTrade, h1, h2]
  · have h1' : ¬ p < cfg.anchorPrice := not_lt.mpr h1.le
    simp [tickWithPrice_tradeStatus, executeTrade, h1, h1', h2]
  · subst h
    simp [tickWithPrice_tradeStatus, tickWithPrice_cashBalance,
      tickWithPrice_sharesHeld, executeTrade]
  · have h2' : ¬ cfg.microTradeAmount ≤ s.cashBalance := not_le.mpr h2
    simp [tickWithPrice_tradeStatus, tickWithPrice_cashBalance,
      tickWithPrice_sharesHeld, executeTrade, h1, h2']
  · have h1' : ¬ p < cfg.anchorPrice := not_lt.mpr h1.le
    have h2' : ¬ (0 : ℚ) < s.sharesHeld := not_lt.mpr h2
    simp [tickWithPrice_tradeStatus, tickWithPrice_cashBalance,
      tickWithPrice_sharesHeld, executeTrade, h1, h1', h2']

theorem c1_trade_rule_witness :
    (tickWithPrice ⟨100, 1⟩ (initState ⟨100, 1⟩) 90).tradeStatus = "BUYING" ∧
    (tickWithPrice ⟨100, 1⟩ (initState ⟨100, 1⟩) 100).tradeStatus = "IDLE" :=
  ⟨(c1_trade_rule ⟨100, 1⟩ (initState ⟨100, 1⟩) 90).1 (by norm_num)
      (by norm_num [initState]),
   ((c1_trade_rule ⟨100, 1⟩ (initState ⟨100, 1⟩) 100).2.2.1 rfl).1⟩

/-- C1 as stated is false on the code: after a buy and two sells leave
zero shares, a further sell-zone tick keeps the status SELLING instead
of setting IDLE. -/
theorem c1_counterexample :
    (runPrices ⟨100, 1⟩ [90, 110, 110]).sharesHeld = 0 ∧
    (runPrices ⟨100, 1⟩ [90, 110, 110, 110]).tradeStatus = "SELLING" := by
  norm_num [runPrices, tickWithPrice, executeTrade, updateCashBalanceHistory,
    updatePriceData, mathMin, initState, List.foldl, List.getLast?]

lemma mathMin_le_left (a b : ℚ) : mathMin a b ≤ a := by
  unfold mathMin; split_ifs with h
  · exact le_refl a
  · exact (not_le.mp h).le

lemma sharesHeld_nonneg_tickWithPrice (cfg : SimConfig) (s : SimState) (p : ℚ)
    (hm : 0 < cfg.microTradeAmount) (hp : 0 < p) (hs : 0 ≤ s.sharesHeld) :
    0 ≤ (tickWithPrice cfg s p).sharesHeld := by
  rw [tickWithPrice_sharesHeld]
  unfold executeTrade
  split_ifs with h1 h2 h3 h4
  · have : 0 < cfg.microTradeAmount / p := div_pos hm hp
    dsimp only
    linarith
  · exact hs
  · dsimp only
    have := mathMin_le_left s.sharesHeld (cfg.microTradeAmount / p)
    linarith
  · exact hs
  · exact hs

lemma sharesHeld_nonneg_foldl (cfg : SimConfig) (hm : 0 < cfg.microTradeAmount) :
    ∀ (prices : List ℚ) (s : SimState), (∀ p ∈ prices, 0 < p) → 0 ≤ s.sharesHeld →
      0 ≤ (prices.foldl (tickWithPrice cfg) s).sharesHeld := by
  intro prices
  induction prices with
  | nil => intro s _ hs; exact hs
  | cons p ps ih =>
    intro s hp hs
    rw [List.foldl_cons]
    exact ih _ (fun q hq => hp q (List.mem_cons_of_mem _ hq))
      (sharesHeld_nonneg_tickWithPrice cfg s p hm (hp p (List.mem_cons_self p ps)) hs)

/-- C2, amended: starting from the initial state, `sharesHeld` stays
non-negative after every tick provided the micro-trade amount is
positive and every generated price is positive; the restriction to
positive prices is forced, see the counterexample. -/
theorem c2_shares_nonneg (cfg : SimConfig) (prices : List ℚ)
    (hm : 0 < cfg.microTradeAmount) (hp : ∀ p ∈ prices, 0 < p) :
    0 ≤ (runPrices cfg prices).sharesHeld := by
  unfold runPrices
  exact sharesHeld_nonneg_foldl cfg hm prices (initState cfg) hp (by norm_num [initState])

theorem c2_shares_nonneg_witness :
    0 ≤ (runPrices ⟨100, 1⟩ [90, 110]).sharesHeld :=
  c2_shares_nonneg ⟨100, 1⟩ [90, 110] (by norm_num) (by
    intro p hp
    simp only [List.mem_cons, List.not_mem_nil, or_false] at hp
    rcases hp with h | h <;> rw [h] <;> norm_num)

/-- C2 as stated is false on the code: a buy at a negative price (which
the price model permits) adds negative shares, so one tick from the
initial state drives `sharesHeld` below zero. -/
theorem c2_counterexample :
    (tickWithPrice ⟨100, 1⟩ (initState ⟨100, 1⟩) (-10)).sharesHeld < 0 := by
  norm_num [tickWithPrice, executeTrade, initState, mathMin]

lemma updatePriceData_eq_drop (l : List PricePoint) (p : ℚ) :
    updatePriceData l p = (l ++ [(⟨l.length, p⟩ : PricePoint)]).drop (l.length + 1 - 50) := by
  simp only [updatePriceData]
  split_ifs with h
  · simp only [List.length_append, List.length_cons, List.length_nil]
  · simp only [List.length_append, List.length_cons, List.length_nil, gt_iff_lt,
      not_lt] at h
    have : l.length + 1 - 50 = 0 := by omega
    rw [this, List.drop_zero]

lemma updatePriceData_length (l : List PricePoint) (p : ℚ) :
    (updatePriceData l p).length = min (l.length + 1) 50 := by
  simp only [updatePriceData]
  split_ifs with h <;>
    simp only [List.length_drop, List.length_append, List.length_cons,
      List.length_nil, gt_iff_lt, not_lt] at h ⊢ <;> omega

lemma runPrices_priceData_length_le (cfg : SimConfig) (prices : List ℚ) :
    (runPrices cfg prices).priceData.length ≤ 50 := by
  unfold runPrices
  have key : ∀ (ps : List ℚ) (s : SimState), s.priceData.length ≤ 50 →
      (ps.foldl (tickWithPrice cfg) s).priceData.length ≤ 50 := by
    intro ps
    induction ps with
    | nil => intro s hs; exact hs
    | cons p ps ih =>
      intro s hs
      rw [List.foldl_cons]
      apply ih
      rw [tickWithPrice_priceData, updatePriceData_length]
      omega
  exact key prices (initState cfg) (by norm_num [initState])

/-- C3: the chart buffer is a strict FIFO sliding window of capacity 50:
after any run its length is at most 50, and each tick appends the new
point and drops just enough of the oldest points to stay at the cap, so
the buffer is always the suffix of most recent points. -/
theorem c3_price_buffer_cap (cfg : SimConfig) (prices : List ℚ) :
    (runPrices cfg prices).priceData.length ≤ 50 ∧
    ∀ (s : SimState) (p : ℚ), s.priceData.length ≤ 50 →
      (tickWithPrice cfg s p).priceData.length ≤ 50 ∧
      (tickWithPrice cfg s p).priceData =
        (s.priceData ++ [(⟨s.priceData.length, p⟩ : PricePoint)]).drop (s.priceData.length + 1 - 50) := by
  refine ⟨runPrices_priceData_length_le cfg prices, fun s p hs => ⟨?_, ?_⟩⟩
  · rw [tickWithPrice_priceData, updatePriceData_length]; omega
  · rw [tickWithPrice_priceData, updatePriceData_eq_drop]

theorem c3_price_buffer_cap_witness :
    (tickWithPrice ⟨100, 1⟩ (initState ⟨100, 1⟩) 90).priceData.length ≤ 50 ∧
    (tickWithPrice ⟨100, 1⟩ (initState ⟨100, 1⟩) 90).priceData =
      ((initState ⟨100, 1⟩).priceData ++
          [(⟨(initState ⟨100, 1⟩).priceData.length, 90⟩ : PricePoint)]).drop
        ((initState ⟨100, 1⟩).priceData.length + 1 - 50) :=
  (c3_price_buffer_cap ⟨100, 1⟩ []).2 (initState ⟨100, 1⟩) 90 (by norm_num [initState])

/-- C4: witness of the balance-log defect: with anchor 100 and
micro-trade 500, two buys at price 90 leave the last logged balance at 0,
and the next tick at the anchor price, on which the projected balance 0
equals the last logged balance 0, still appends an event (with change
-1000), because the source reads the last balance through `|| 1000`,
which treats the falsy balance 0 as missing. -/
theorem c4_balance_log_bug :
    (runPrices ⟨100, 500⟩ [90, 90]).cashBalanceHistory.getLast? =
      some ⟨2, 0, -500, "BUYING", some 90⟩ ∧
    (runPrices ⟨100, 500⟩ [90, 90, 100]).cashBalanceHistory =
      (runPrices ⟨100, 500⟩ [90, 90]).cashBalanceHistory ++
        [⟨3, 0, -1000, "BUYING", some 100⟩] := by
  norm_num [runPrices, tickWithPrice, executeTrade, updateCashBalanceHistory,
    updatePriceData, mathMin, initState, List.foldl, List.getLast?]

/-- C5 as stated is false on the code: with anchor 100 the first two
ticks at price 100 log nothing, the third tick at price 90 appends an
event, and that event carries time 1 (the log length), not the tick
index 3. -/
theorem c5_counterexample :
    (runPrices ⟨100, 1⟩ [100, 100]).cashBalanceHistory.length = 1 ∧
    (runPrices ⟨100, 1⟩ [100, 100, 90]).cashBalanceHistory =
      [⟨0, 1000, 0, "INITIAL", none⟩, ⟨1, 999, -1, "IDLE", some 90⟩] := by
  norm_num [runPrices, tickWithPrice, executeTrade, updateCashBalanceHistory,
    updatePriceData, mathMin, initState, List.foldl, List.getLast?]

lemma updateCashBalanceHistory_times (cfg : SimConfig) (p c sh : ℚ) (st : String)
    (hist : List BalanceEvent)
    (h : (hist.map fun e => e.time) = List.range hist.length) :
    ((updateCashBalanceHistory cfg p c sh st hist).map fun e => e.time) =
      List.range (updateCashBalanceHistory cfg p c sh st hist).length := by
  simp only [updateCashBalanceHistory]
  split_ifs <;> simp [h, List.range_succ]

/-- C5, amended: the time stamped on each appended BalanceEvent is the
length of the balance log before the append, so after any run the
logged times are exactly the consecutive integers 0, 1, 2, …: no gaps
appear, however long the balance stays unchanged. -/
theorem c5_time_is_log_length (cfg : SimConfig) (prices : List ℚ) :
    ((runPrices cfg prices).cashBalanceHistory.map fun e => e.time) =
      List.range (runPrices cfg prices).cashBalanceHistory.length := by
  unfold runPrices
  have key : ∀ (ps : List ℚ) (s : SimState),
      ((s.cashBalanceHistory.map fun e => e.time) =
        List.range s.cashBalanceHistory.length) →
      (((ps.foldl (tickWithPrice cfg) s).cashBalanceHistory.map fun e => e.time) =
        List.range (ps.foldl (tickWithPrice cfg) s).cashBalanceHistory.length) := by
    intro ps
    induction ps with
    | nil => intro s hs; exact hs
    | cons p ps ih =>
      intro s hs
      rw [List.foldl_cons]
      exact ih _ (updateCashBalanceHistory_times cfg p s.cashBalance s.sharesHeld
        s.tradeStatus s.cashBalanceHistory hs)
  apply key
  norm_num [initState, List.range_succ]

/-- C6: after any sequence of start, pause and tick operations, reset
restores the full initial state: cash 1000, no shares, price and price
series re-based to the anchor, status IDLE, the single INITIAL balance
event, and no scheduled timer. -/
theorem c6_reset_restores_initial (cfg : SimConfig) (ops : List SimOp) :
    resetSimulation cfg (applyOps cfg ops) = initState cfg ∧
    (resetSimulation cfg (applyOps cfg ops)).isRunning = false :=
  ⟨rfl, rfl⟩

/-- C7: a BUY is value-neutral in exact arithmetic: when the buy branch
fires (price below anchor, enough cash) at a non-zero price `p`, the
post-tick `cashBalance + sharesHeld * p` equals its pre-tick value. -/
theorem c7_buy_value_neutral (cfg : SimConfig) (s : SimState) (p : ℚ)
    (hp : p ≠ 0) (hlt : p < cfg.anchorPrice)
    (hc : cfg.microTradeAmount ≤ s.cashBalance) :
    (tickWithPrice cfg s p).cashBalance + (tickWithPrice cfg s p).sharesHeld * p =
      s.cashBalance + s.sharesHeld * p := by
  rw [tickWithPrice_cashBalance, tickWithPrice_sharesHeld]
  unfold executeTrade
  rw [if_pos hlt, if_pos hc]
  dsimp only
  rw [add_mul, div_mul_cancel₀ _ hp]
  ring

theorem c7_buy_value_neutral_witness :
    (tickWithPrice ⟨100, 1⟩ (initState ⟨100, 1⟩) 90).cashBalance +
        (tickWithPrice ⟨100, 1⟩ (initState ⟨100, 1⟩) 90).sharesHeld * 90 =
      (initState ⟨100, 1⟩).cashBalance + (initState ⟨100, 1⟩).sharesHeld * 90 :=
  c7_buy_value_neutral ⟨100, 1⟩ (initState ⟨100, 1⟩) 90 (by norm_num)
    (by norm_num) (by norm_num [initState])

lemma tick_eq (cfg : SimConfig) (s : SimState) (u : ℚ) :
    tick cfg s u =
      tickWithPrice cfg s (generatePrice cfg.anchorPrice s.priceData.length u) := rfl

lemma tickWithPrice_currentPrice (cfg : SimConfig) (s : SimState) (p : ℚ) :
    (tickWithPrice cfg s p).currentPrice = p := rfl

lemma foldl_tick_priceData_length (cfg : SimConfig) :
    ∀ (draws : List ℚ) (s : SimState), s.priceData.length ≤ 50 →
      ((draws.foldl (tick cfg) s).priceData).length =
        min (s.priceData.length + draws.length) 50 := by
  intro draws
  induction draws with
  | nil => intro s hs; simp; omega
  | cons d ds ih =>
    intro s hs
    rw [List.foldl_cons]
    have hlen : ((tick cfg s d).priceData).length = min (s.priceData.length + 1) 50 := by
      rw [tick_eq, tickWithPrice_priceData, updatePriceData_length]
    rw [ih (tick cfg s d) (by omega), hlen]
    simp only [List.length_cons]
    omega

lemma runTicks_priceData_length (cfg : SimConfig) (draws : List ℚ) :
    (runTicks cfg draws).priceData.length = min (draws.length + 1) 50 := by
  unfold runTicks
  rw [foldl_tick_priceData_length cfg draws (initState cfg) (by norm_num [initState])]
  norm_num [initState]
  omega

/-- C8, amended: at a tick the generated price is
`trend + u * (trend * 0.015)` with `trend = anchor * 1.002 ^ L`, where
`L` is the price-series length at tick start; after `n` prior ticks from
the initial state `L = min (n + 1) 50`, so the exponent is the (1-based)
tick index only for the first 50 ticks and is pinned at 50 afterwards. -/
theorem c8_price_generation (cfg : SimConfig) (draws : List ℚ) (u : ℚ) :
    (tick cfg (runTicks cfg draws) u).currentPrice =
      cfg.anchorPrice * (1 + 2 / 1000) ^ min (draws.length + 1) 50 +
        u * (cfg.anchorPrice * (1 + 2 / 1000) ^ min (draws.length + 1) 50 * (15 / 1000)) := by
  rw [tick_eq, tickWithPrice_currentPrice, runTicks_priceData_length]
  rfl

/-- C8 as stated is false on the code at tick 51: after 50 ticks the
price-series length is pinned at 50, so the 51st generated price (with
draw 0) sits on the trend with exponent 50, not the tick index 51. -/
theorem c8_counterexample :
    (tick ⟨100, 1⟩ (runTicks ⟨100, 1⟩ (List.replicate 50 0)) 0).currentPrice =
      100 * (1 + 2 / 1000 : ℚ) ^ 50 ∧
    (100 * (1 + 2 / 1000 : ℚ) ^ 50) ≠ 100 * (1 + 2 / 1000 : ℚ) ^ 51 := by
  constructor
  · rw [tick_eq, tickWithPrice_currentPrice, runTicks_priceData_length]
    simp only [List.length_replicate]
    norm_num [generatePrice]
  · have h2 : ((1 : ℚ) + 2 / 1000) ^ 50 < (1 + 2 / 1000) ^ 51 :=
      pow_lt_pow_right₀ (by norm_num) (by norm_num)
    have h3 : (100 : ℚ) * (1 + 2 / 1000) ^ 50 < 100 * (1 + 2 / 1000) ^ 51 := by
      nlinarith
    exact ne_of_lt h3

/-- C9: the CSV export of the two-event scenario log is exactly the
header plus one comma-separated row per event, balances and changes to
two decimal places and the absent initial price rendered N/A. -/
theorem c9_csv_export :
    exportCashBalanceData
        [⟨0, 1000, 0, "INITIAL", none⟩, ⟨1, 999, -1, "BUYING", some 90⟩] =
      "Time,Cash Balance,Change,Action,Asset Price\n0,1000.00,0.00,INITIAL,N/A\n1,999.00,-1.00,BUYING,90.00" := by
  decide

/-- C10: once the chart buffer holds 50 points, a tick appends a point
stamped with time 50 (the pre-append length), drops the oldest point,
and leaves the length at 50, so every later appended point is stamped
50 as well. -/
theorem c10_saturated_time_pinned (cfg : SimConfig) (s : SimState) (p : ℚ)
    (h : s.priceData.length = 50) :
    (tickWithPrice cfg s p).priceData =
      s.priceData.drop 1 ++ [(⟨50, p⟩ : PricePoint)] ∧
    (tickWithPrice cfg s p).priceData.length = 50 := by
  constructor
  · rw [tickWithPrice_priceData, updatePriceData_eq_drop, h]
    have h1 : 50 + 1 - 50 = 1 := by norm_num
    rw [h1, List.drop_append_of_le_length (by omega)]
  · rw [tickWithPrice_priceData, updatePriceData_length, h]
    omega

theorem c10_saturated_time_pinned_witness :
    (tickWithPrice ⟨100, 1⟩ satState 90).priceData =
      satState.priceData.drop 1 ++ [(⟨50, 90⟩ : PricePoint)] ∧
    (tickWithPrice ⟨100, 1⟩ satState 90).priceData.length = 50 :=
  c10_saturated_time_pinned ⟨100, 1⟩ satState 90 (by simp [satState])
